import Mathlib

/-!
Shallow embedding of the CHIP-8 emulator core (`src/cpu.rs`) and proofs
about its instruction engine, ROM loader and display accessor.

Modelling conventions:
* Machine integers (`u8`, `u16`) are `Nat`s; the fixed-size Rust arrays
  (`[u8; 0x1000]`, `[u8; 16]`, `[[bool; 64]; 32]`) are `List`s whose fixed
  lengths appear as hypotheses where a proof needs them.
* A Rust panic (index out of bounds, or debug-build arithmetic
  overflow/underflow on `+`/`-`) is modelled as `none` : all fallible
  operations return `Option`.
* Register reads/writes `self.v[x]` always use a nibble index `x < 16`
  against the fixed-size 16-element register file, so they can never
  panic; they are modelled by the total `List.getD` / `List.set`.
* `self.pc += 2` on `u16` is reachable only after a successful fetch,
  which forces `pc ≤ 0xFFE`, so the increment cannot overflow and is
  modelled by plain `Nat` addition.
* The random byte drawn by opcode `Cxkk` is an input `rnd` to the step
  function (used as `rnd % 256`).
* Rust `match` dispatch over integer nibbles is written as a chain of
  equality tests on the same scrutinees, which is its exact semantics.
-/

/-- RAM base of program memory, `BASE` in `cpu.rs` (0x200). -/
def BASE : Nat := 0x200

/-- RAM size / end of memory, `END` in `cpu.rs` (0x1000). -/
def END : Nat := 0x1000

/-- The error taxonomy `CpuError` of `cpu.rs`; the `std::io::Error`
payloads of the open/read failures are irrelevant to the claims and are
dropped. -/
inductive CpuError where
  | RomOpenError : CpuError
  | RomReadError : CpuError
  | RomSizeError (max : Nat) (actual : Nat) : CpuError
deriving DecidableEq

/-- The successful ROM-load payload `RomLoadResult` of `cpu.rs`. -/
structure RomLoadResult where
  bytes_read : Nat
deriving DecidableEq

/-- The machine state, struct `Cpu` of `cpu.rs`.  `memory` has length
0x1000, `v` length 16, `display` is 32 rows of 64 booleans; `stack` is the
`Vec<u16>` call stack with its top at the head of the list. -/
structure Cpu where
  memory : List Nat
  rom_size : Nat
  v : List Nat
  i : Nat
  pc : Nat
  stack : List Nat
  sp : Nat
  dt : Nat
  st : Nat
  keypad : List Bool
  display : List (List Bool)
deriving DecidableEq

/-- `Cpu::new()` of `cpu.rs`. -/
def Cpu.new : Cpu where
  memory := List.replicate END 0
  rom_size := 0
  v := List.replicate 16 0
  i := 0
  pc := 0x200
  stack := []
  sp := 0
  dt := 0
  st := 0
  keypad := List.replicate 16 false
  display := List.replicate 32 (List.replicate 64 false)

/-- Checked 8-bit addition: Rust `a + b` on `u8`, which panics (debug
build) when the sum exceeds `u8::MAX`. -/
def u8add (a b : Nat) : Option Nat :=
  if a + b ≤ 255 then some (a + b) else none

/-- Checked 8-bit subtraction: Rust `a - b` on `u8`, which panics (debug
build) when it would borrow. -/
def u8sub (a b : Nat) : Option Nat :=
  if b ≤ a then some (a - b) else none

/-- Checked 16-bit addition: Rust `a + b` on `u16`, which panics (debug
build) when the sum exceeds `u16::MAX`. -/
def u16add (a b : Nat) : Option Nat :=
  if a + b ≤ 65535 then some (a + b) else none

/-- Read one RAM byte, Rust `self.memory[a]`: panics when `a` is out of
bounds. -/
def memRead (s : Cpu) (a : Nat) : Option Nat :=
  s.memory.get? a

/-- Read register `Vx`, Rust `self.v[x]`.  The index is always a nibble
(< 16) against the fixed 16-element file, hence total. -/
def vGet (s : Cpu) (x : Nat) : Nat :=
  s.v.getD x 0

/-- Write register `Vx`, Rust `self.v[x] = val`; same in-bounds argument
as `vGet`. -/
def vSet (s : Cpu) (x val : Nat) : Cpu :=
  { s with v := s.v.set x val }

/-- `Cpu::next_instr` of `cpu.rs`: big-endian combination of the bytes at
`pc` and `pc + 1`. -/
def next_instr (s : Cpu) : Option Nat :=
  (memRead s s.pc).bind fun b1 =>
    (memRead s (s.pc + 1)).bind fun b2 =>
      some ((b1 <<< 8) ||| b2)

/-- The body of the `match ind` dispatch in `Cpu::cpu_exec` of `cpu.rs`,
applied to an already fetched instruction word `cmd`. -/
def execCmd (s : Cpu) (rnd cmd : Nat) : Option Cpu :=
  let ind := (cmd >>> 8) >>> 4
  if ind = 0x0 then
    if cmd = 0x00E0 then
      -- CLS
      some { s with display := List.replicate 32 (List.replicate 64 false) }
    else if cmd = 0x00EE then
      -- RET: `self.stack.pop()`; on `None` the function just returns
      match s.stack with
      | [] => some s
      | addr :: rest => some { s with pc := addr, stack := rest }
    else
      -- 0NNN legacy system jump: warning only, no state change
      some s
  else if ind = 0x1 then
    some { s with pc := 0x0FFF &&& cmd }
  else if ind = 0x2 then
    some { s with stack := s.pc :: s.stack, pc := 0x0FFF &&& cmd }
  else if ind = 0x3 then
    if vGet s ((0x0F00 &&& cmd) >>> 8) = 0x00FF &&& cmd then
      some { s with pc := s.pc + 2 }
    else
      some s
  else if ind = 0x4 then
    if vGet s ((0x0F00 &&& cmd) >>> 8) ≠ 0x00FF &&& cmd then
      some { s with pc := s.pc + 2 }
    else
      some s
  else if ind = 0x5 then
    if vGet s ((0x0F00 &&& cmd) >>> 8) = vGet s ((0x00F0 &&& cmd) >>> 4) then
      some { s with pc := s.pc + 2 }
    else
      some s
  else if ind = 0x6 then
    some { vSet s ((0x0F00 &&& cmd) >>> 8) (0x00FF &&& cmd) with pc := s.pc + 2 }
  else if ind = 0x7 then
    match u8add (vGet s ((0x0F00 &&& cmd) >>> 8)) (0x00FF &&& cmd) with
    | none => none
    | some r => some { vSet s ((0x0F00 &&& cmd) >>> 8) r with pc := s.pc + 2 }
  else if ind = 0x8 then
    let n := 0x000F &&& cmd
    let x := (0x0F00 &&& cmd) >>> 8
    let y := (0x00F0 &&& cmd) >>> 4
    if n = 0x0 then
      some { vSet s x (vGet s y) with pc := s.pc + 2 }
    else if n = 0x1 then
      some { vSet s x (vGet s x ||| vGet s y) with pc := s.pc + 2 }
    else if n = 0x2 then
      some { vSet s x (vGet s x &&& vGet s y) with pc := s.pc + 2 }
    else if n = 0x3 then
      some { vSet s x (vGet s x ^^^ vGet s y) with pc := s.pc + 2 }
    else if n = 0x4 then
      -- `let sum = self.v[x] + self.v[y];` then VF, then pc, then v[x]
      match u8add (vGet s x) (vGet s y) with
      | none => none
      | some sum =>
        let s1 := if 255 < sum then vSet s 0xF 1 else vSet s 0xF 0
        some (vSet { s1 with pc := s1.pc + 2 } x (sum &&& 0xFF))
    else if n = 0x5 then
      -- `let sub = self.v[x] - self.v[y];` then VF, then pc, then v[x]
      match u8sub (vGet s x) (vGet s y) with
      | none => none
      | some sub =>
        let s1 := if vGet s y ≤ vGet s x then vSet s 0xF 1 else vSet s 0xF 0
        some (vSet { s1 with pc := s1.pc + 2 } x sub)
    else if n = 0x6 then
      -- VF is written before v[y] is read a second time
      let s1 := vSet s 0xF (vGet s y &&& 1)
      let s2 := vSet s1 x (vGet s1 y >>> 1)
      some { s2 with pc := s2.pc + 2 }
    else if n = 0x7 then
      match u8sub (vGet s y) (vGet s x) with
      | none => none
      | some sub =>
        let s1 := if vGet s x ≤ vGet s y then vSet s 0xF 1 else vSet s 0xF 0
        some (vSet { s1 with pc := s1.pc + 2 } x sub)
    else if n = 0xE then
      -- Rust `<< 1` on u8 truncates; VF written before the second read
      let s1 := vSet s 0xF ((vGet s y >>> 7) &&& 1)
      let s2 := vSet s1 x ((vGet s1 y <<< 1) % 256)
      some { s2 with pc := s2.pc + 2 }
    else
      some s
  else if ind = 0x9 then
    if vGet s ((0x0F00 &&& cmd) >>> 8) ≠ vGet s ((0x00F0 &&& cmd) >>> 4) then
      some { s with pc := s.pc + 2 }
    else
      some s
  else if ind = 0xA then
    some { s with i := 0x0FFF &&& cmd, pc := s.pc + 2 }
  else if ind = 0xB then
    some { s with pc := (0x0FFF &&& cmd) + vGet s 0x0 }
  else if ind = 0xC then
    some { vSet s ((0x0F00 &&& cmd) >>> 8) ((rnd % 256) &&& (0x00FF &&& cmd)) with
           pc := s.pc + 2 }
  else if ind = 0xD then
    -- DRAW: unimplemented in the source (comment-only arm)
    some s
  else if ind = 0xE then
    let kk := cmd &&& 0x00FF
    if kk = 0x9E then
      some s
    else if kk = 0xA1 then
      some s
    else
      some s
  else if ind = 0xF then
    let kk := cmd &&& 0x00FF
    let x := (0x0F00 &&& cmd) >>> 8
    if kk = 0x07 then
      some { vSet s x s.dt with pc := s.pc + 2 }
    else if kk = 0x0A then
      some s
    else if kk = 0x15 then
      some { s with dt := vGet s x, pc := s.pc + 2 }
    else if kk = 0x18 then
      some { s with st := vGet s x, pc := s.pc + 2 }
    else if kk = 0x1E then
      match u16add s.i (vGet s x) with
      | none => none
      | some r => some { s with i := r, pc := s.pc + 2 }
    else if kk = 0x29 then
      some s
    else if kk = 0x33 then
      some s
    else if kk = 0x55 then
      some s
    else if kk = 0x65 then
      some s
    else
      some s
  else
    some s

/-- `Cpu::cpu_exec` of `cpu.rs`: fetch the word at `pc`, then dispatch. -/
def cpu_exec (s : Cpu) (rnd : Nat) : Option Cpu :=
  (next_instr s).bind (execCmd s rnd)

/-- Overwrite `buf` into `mem` starting at `off`: Rust
`self.memory[off..off + buf.len()].copy_from_slice(&buf)`. -/
def writeBytes (mem : List Nat) (off : Nat) : List Nat → List Nat
  | [] => mem
  | b :: rest => writeBytes (mem.set off b) (off + 1) rest

/-- The memory-loading part of `Cpu::load_rom` of `cpu.rs`, applied to the
byte sequence `buf` already read from the ROM source (file opening and
reading are external I/O).  Returns the Rust function's result together
with the resulting state. -/
def load_rom (s : Cpu) (buf : List Nat) : Except CpuError RomLoadResult × Cpu :=
  let bytes_read := buf.length
  if END - BASE < bytes_read then
    (Except.error (CpuError.RomSizeError (END - BASE) bytes_read), s)
  else
    (Except.ok ⟨bytes_read⟩,
      { s with memory := writeBytes s.memory BASE buf, rom_size := bytes_read })

/-- `Cpu::set_display` of `cpu.rs`: `self.display[y][x] = value`, with the
two unchecked indexings (panics modelled as `none`). -/
def set_display (s : Cpu) (x y : Nat) (value : Bool) : Option Cpu :=
  (s.display.get? y).bind fun row =>
    (row.get? x).bind fun _ =>
      some { s with display := s.display.set y (row.set x value) }

/-- Assigned opcode patterns, per the opcode table of the specification
(§4.2): the conditional register skips are `5xy0`/`9xy0` only, the
register-to-register family covers final nibbles 0–7 and E, the key-skip
family covers low bytes 9E and A1, and the F family the listed low bytes.
Every word of the 0–4, 6, 7, A–D families (including the legacy `0nnn`
system call) is assigned. -/
def assigned (cmd : Nat) : Bool :=
  let ind := (cmd >>> 8) >>> 4
  if ind = 0x0 then true
  else if ind = 0x1 then true
  else if ind = 0x2 then true
  else if ind = 0x3 then true
  else if ind = 0x4 then true
  else if ind = 0x5 then (0x000F &&& cmd) == 0
  else if ind = 0x6 then true
  else if ind = 0x7 then true
  else if ind = 0x8 then
    [0x0, 0x1, 0x2, 0x3, 0x4, 0x5, 0x6, 0x7, 0xE].contains (0x000F &&& cmd)
  else if ind = 0x9 then (0x000F &&& cmd) == 0
  else if ind = 0xA then true
  else if ind = 0xB then true
  else if ind = 0xC then true
  else if ind = 0xD then true
  else if ind = 0xE then [0x9E, 0xA1].contains (cmd &&& 0x00FF)
  else if ind = 0xF then
    [0x07, 0x0A, 0x15, 0x18, 0x1E, 0x29, 0x33, 0x55, 0x65].contains (cmd &&& 0x00FF)
  else false


/-- Fresh machine with the word `3000` (skip if `V0 == 0x00`; the
condition holds since `V0 = 0`) placed at the entry point. -/
def c1aState : Cpu :=
  { Cpu.new with memory := (Cpu.new.memory.set 0x200 0x30).set 0x201 0x00 }

/-- Fresh machine with the word `3001` (skip if `V0 == 0x01`; the
condition fails since `V0 = 0`) placed at the entry point. -/
def c1bState : Cpu :=
  { Cpu.new with memory := (Cpu.new.memory.set 0x200 0x30).set 0x201 0x01 }

/-- Fresh machine with `V0 = 0xFF`, `V1 = 0x01` and the add word `8014`
at the entry point. -/
def c2State : Cpu :=
  { Cpu.new with
      v := (Cpu.new.v.set 0x0 0xFF).set 0x1 0x01,
      memory := (Cpu.new.memory.set 0x200 0x80).set 0x201 0x14 }

/-- Fresh machine with `V0 = 0x05`, `V1 = 0x0A` and the sub word `8015`
at the entry point. -/
def c3State : Cpu :=
  { Cpu.new with
      v := (Cpu.new.v.set 0x0 0x05).set 0x1 0x0A,
      memory := (Cpu.new.memory.set 0x200 0x80).set 0x201 0x15 }

/-- Fresh machine with the draw word `D001` at the entry point and the
index register pointing at a one-byte sprite `0xFF`. -/
def c5State : Cpu :=
  { Cpu.new with
      memory := ((Cpu.new.memory.set 0x200 0xD0).set 0x201 0x01).set 0x300 0xFF,
      i := 0x300 }

/-- Machine whose call stack already holds 16 return addresses, with the
call word `2ABC` at the entry point. -/
def c6State : Cpu :=
  { Cpu.new with
      stack := List.replicate 16 0x300,
      memory := (Cpu.new.memory.set 0x200 0x2A).set 0x201 0xBC }

/-- Fresh machine with the return word `00EE` at the entry point; the
call stack is empty. -/
def c8State : Cpu :=
  { Cpu.new with memory := (Cpu.new.memory.set 0x200 0x00).set 0x201 0xEE }

/-- Fresh machine with the word `5011` (unassigned: register-skip family
with nonzero final nibble) at the entry point; `V0 = V1 = 0`. -/
def c9State : Cpu :=
  { Cpu.new with memory := (Cpu.new.memory.set 0x200 0x50).set 0x201 0x11 }

/-- Fresh machine with the word `8F08` (unassigned final nibble of the
register-to-register family) at the entry point. -/
def c9WState : Cpu :=
  { Cpu.new with memory := (Cpu.new.memory.set 0x200 0x8F).set 0x201 0x08 }

set_option maxRecDepth 100000

/-- The fresh machine has the full 4096-byte address space. -/
theorem new_memory_length : Cpu.new.memory.length = 4096 := by
  show (List.replicate END 0).length = 4096
  rw [List.length_replicate]
  rfl

/-- `writeBytes` never reads below the write window. -/
theorem writeBytes_get_lo (buf : List Nat) :
    ∀ (mem : List Nat) (off a : Nat), a < off →
      (writeBytes mem off buf).get? a = mem.get? a := by
  induction buf with
  | nil => intro mem off a _; rfl
  | cons b rest ih =>
    intro mem off a ha
    show (writeBytes (mem.set off b) (off + 1) rest).get? a = mem.get? a
    rw [ih _ _ _ (by omega), List.get?_set_ne _ _ (by omega)]

/-- `writeBytes` never writes above the write window. -/
theorem writeBytes_get_hi (buf : List Nat) :
    ∀ (mem : List Nat) (off a : Nat), off + buf.length ≤ a →
      (writeBytes mem off buf).get? a = mem.get? a := by
  induction buf with
  | nil => intro mem off a _; rfl
  | cons b rest ih =>
    intro mem off a ha
    show (writeBytes (mem.set off b) (off + 1) rest).get? a = mem.get? a
    have hlen : (b :: rest).length = rest.length + 1 := rfl
    rw [ih _ _ _ (by rw [hlen] at ha; omega),
        List.get?_set_ne _ _ (by rw [hlen] at ha; omega)]

/-- Inside the window, `writeBytes` copies the buffer verbatim. -/
theorem writeBytes_get_in (buf : List Nat) :
    ∀ (mem : List Nat) (off a : Nat), off ≤ a → a < off + buf.length →
      off + buf.length ≤ mem.length →
      (writeBytes mem off buf).get? a = buf.get? (a - off) := by
  induction buf with
  | nil => intro mem off a h1 h2 _; simp at h2; omega
  | cons b rest ih =>
    intro mem off a h1 h2 h3
    show (writeBytes (mem.set off b) (off + 1) rest).get? a = (b :: rest).get? (a - off)
    have hlen : (b :: rest).length = rest.length + 1 := rfl
    rcases Nat.eq_or_lt_of_le h1 with heq | hlt
    · subst heq
      rw [writeBytes_get_lo rest _ _ _ (by omega), Nat.sub_self]
      rw [List.get?_set_eq_of_lt _ (by rw [hlen] at h3; omega)]
      rfl
    · have h4 : a - off = (a - (off + 1)) + 1 := by omega
      rw [ih _ _ _ (by omega) (by rw [hlen] at h2; omega)
            (by rw [List.length_set]; rw [hlen] at h3; omega), h4]
      rfl

/-- C1: the specification states a conditional skip advances the program
counter by 4 when the skip condition holds and by 2 when it does not.
The code lacks the unconditional base advance: executing `3xkk` from
`pc = 0x200` with the condition true yields `pc = 0x202` (+2, not +4),
and with the condition false leaves `pc = 0x200` (+0, not +2). -/
theorem skip_pc_advance_bug :
    c1aState.pc = 0x200 ∧ c1bState.pc = 0x200 ∧
    cpu_exec c1aState 0 = some { c1aState with pc := 0x202 } ∧
    cpu_exec c1bState 0 = some c1bState :=
  ⟨rfl, rfl, rfl, rfl⟩

/-- C2: the specification states `8xy4` stores `(Vx + Vy) mod 256`, sets
VF to 1 exactly when the unmodulated sum exceeds 255, and never faults.
The code computes `self.v[x] + self.v[y]` in 8-bit width: with
`Vx = 0xFF`, `Vy = 0x01` the addition overflows `u8` and the step faults
(debug-build panic, modelled as `none`) instead of producing `Vx = 0x00`,
`VF = 1`. -/
theorem add_overflow_bug : cpu_exec c2State 0 = none := rfl

/-- C3: the specification states `8xy5` stores `(Vx - Vy) mod 256`, sets
VF to 1 exactly when `Vx ≥ Vy`, and never faults.  The code computes
`self.v[x] - self.v[y]` in 8-bit width: with `Vx = 0x05`, `Vy = 0x0A` the
subtraction borrows and the step faults (debug-build panic, modelled as
`none`) instead of producing `Vx = 0xFB`, `VF = 0`. -/
theorem sub_borrow_bug : cpu_exec c3State 0 = none := rfl

/-- C4: instruction fetch is guarded at the top of memory.  On the full
4096-byte address space, `next_instr` fails (in the defined way, without
any out-of-bounds read) exactly when `pc + 1 > 0xFFF`, and otherwise
returns the big-endian combination of the two in-bounds bytes at `pc`
and `pc + 1`. -/
theorem next_instr_guarded (s : Cpu) (h : s.memory.length = 4096) :
    (0xFFF < s.pc + 1 → next_instr s = none) ∧
    (s.pc + 1 ≤ 0xFFF →
      next_instr s =
        some ((s.memory.getD s.pc 0 <<< 8) ||| s.memory.getD (s.pc + 1) 0)) := by
  constructor
  · intro hgt
    unfold next_instr memRead
    rcases Nat.lt_or_ge s.pc 4096 with hlt | hge
    · have h2 : s.memory.get? (s.pc + 1) = none := by
        rw [List.get?_eq_none]; omega
      have h1 : s.pc < s.memory.length := by omega
      have hb1 : s.memory.get? s.pc = some (s.memory.get ⟨s.pc, h1⟩) := by
        rw [List.get?_eq_some]; exact ⟨h1, rfl⟩
      rw [hb1, h2]
      rfl
    · have h1 : s.memory.get? s.pc = none := by rw [List.get?_eq_none]; omega
      rw [h1]; rfl
  · intro hle
    have h1 : s.pc < s.memory.length := by omega
    have h2 : s.pc + 1 < s.memory.length := by omega
    unfold next_instr memRead
    rw [List.get?_eq_getElem?, List.get?_eq_getElem?,
        List.getElem?_eq_getElem h1, List.getElem?_eq_getElem h2]
    simp [List.getD_eq_getElem?_getD, List.getElem?_eq_getElem h1,
          List.getElem?_eq_getElem h2]

/-- C4 witness: with the program counter at 0x1000 the fetch fails. -/
theorem next_instr_guarded_witness :
    next_instr { Cpu.new with pc := 0x1000 } = none :=
  (next_instr_guarded { Cpu.new with pc := 0x1000 } new_memory_length).1
    (by decide)

/-- C5: the specification states `Dxyn` XOR-blits the sprite, sets VF by
collision, and advances `pc` by 2.  The `0xD` arm of the source is a
comment-only stub: executing `D001` (sprite byte `0xFF` at `I`) returns
the state completely unchanged — no framebuffer write, no VF update, and
`pc` still at 0x200. -/
theorem draw_unimplemented_bug :
    cpu_exec c5State 0 = some c5State ∧ c5State.pc = 0x200 :=
  ⟨rfl, rfl⟩

/-- C6: the specification states the call stack is bounded at depth 16
and a call on a full stack is dropped or fails without growing the
stack.  The code pushes onto an unbounded `Vec` with no depth check:
executing `2nnn` with 16 entries already stacked yields a 17-entry
stack. -/
theorem call_stack_unbounded_bug :
    c6State.stack.length = 16 ∧
    cpu_exec c6State 0 =
      some { c6State with stack := c6State.pc :: c6State.stack, pc := 0xABC } ∧
    (c6State.pc :: c6State.stack).length = 17 :=
  ⟨rfl, rfl, rfl⟩

/-- C7: ROM loading fails with the size error, carrying `max = 3584` and
the actual length, if and only if the byte sequence exceeds 3584 bytes;
on failure the state is untouched, and on success exactly the loaded
bytes appear at offset 0x200 with all other memory unchanged. -/
theorem load_rom_size_check (s : Cpu) (buf : List Nat)
    (hm : s.memory.length = 4096) :
    (buf.length ≤ 3584 →
      (load_rom s buf).1 = Except.ok ⟨buf.length⟩ ∧
      (∀ j, j < buf.length →
        (load_rom s buf).2.memory.get? (0x200 + j) = buf.get? j) ∧
      (∀ a, a < 0x200 ∨ 0x200 + buf.length ≤ a →
        (load_rom s buf).2.memory.get? a = s.memory.get? a)) ∧
    (3584 < buf.length →
      (load_rom s buf).1 = Except.error (CpuError.RomSizeError 3584 buf.length) ∧
      (load_rom s buf).2 = s) := by
  have hB : BASE = 512 := rfl
  have hE : END = 4096 := rfl
  constructor
  · intro hle
    have hnot : ¬ (END - BASE < buf.length) := by rw [hB, hE]; omega
    refine ⟨?_, ?_, ?_⟩
    · unfold load_rom
      rw [if_neg hnot]
    · intro j hj
      unfold load_rom
      rw [if_neg hnot]
      show (writeBytes s.memory BASE buf).get? (0x200 + j) = buf.get? j
      rw [writeBytes_get_in buf s.memory BASE (0x200 + j) (by rw [hB]; omega)
            (by rw [hB]; omega) (by rw [hB, hm]; omega)]
      congr 1
      rw [hB]
      omega
    · intro a ha
      unfold load_rom
      rw [if_neg hnot]
      show (writeBytes s.memory BASE buf).get? a = s.memory.get? a
      rcases ha with ha | ha
      · exact writeBytes_get_lo buf s.memory BASE a (by rw [hB]; omega)
      · exact writeBytes_get_hi buf s.memory BASE a (by rw [hB]; omega)
  · intro hgt
    have hyes : END - BASE < buf.length := by rw [hB, hE]; omega
    refine ⟨?_, ?_⟩
    · unfold load_rom
      rw [if_pos hyes]
      rw [hB, hE]
    · unfold load_rom
      rw [if_pos hyes]

/-- C7 witness: loading a 2-byte ROM into a fresh machine succeeds and
its first byte lands at 0x200. -/
theorem load_rom_size_check_witness :
    (load_rom Cpu.new [0xAB, 0xCD]).1 = Except.ok ⟨2⟩ ∧
    (load_rom Cpu.new [0xAB, 0xCD]).2.memory.get? 0x200 = some 0xAB := by
  have h := (load_rom_size_check Cpu.new [0xAB, 0xCD] new_memory_length).1
    (by decide)
  refine ⟨h.1, ?_⟩
  have h2 := h.2.1 0 (by decide)
  simpa using h2

/-- C8: executing the return word `00EE` with an empty call stack is a
defined no-op: the whole state, the program counter included, is
unchanged, and no fault occurs. -/
theorem ret_empty_stack_noop (s : Cpu) (rnd : Nat)
    (hf : next_instr s = some 0x00EE) (hs : s.stack = []) :
    cpu_exec s rnd = some s := by
  unfold cpu_exec
  rw [hf]
  show execCmd s rnd 0x00EE = some s
  unfold execCmd
  simp [hs]

/-- C8 witness: a fresh machine with `00EE` at the entry point steps to
itself. -/
theorem ret_empty_stack_noop_witness :
    cpu_exec c8State 0 = some c8State :=
  ret_empty_stack_noop c8State 0 rfl rfl

/-- C9 counterexample: `5011` matches no assigned opcode pattern, yet
executing it is not a no-op — the code decodes the register-skip families
by high nibble alone, so with `V0 = V1` it advances `pc` from 0x200 to
0x202. -/
theorem unassigned_opcode_not_noop :
    assigned 0x5011 = false ∧
    next_instr c9State = some 0x5011 ∧
    c9State.pc = 0x200 ∧
    cpu_exec c9State 0 = some { c9State with pc := 0x202 } :=
  ⟨rfl, rfl, rfl, rfl⟩

/-- C9 (amended): executing any fetched word that matches no assigned
opcode pattern never faults; and unless its high nibble is 5 or 9 (such
words execute the corresponding register-skip comparison, which may add
2 to `pc`), it is a no-op leaving the whole state unchanged. -/
theorem cpu_exec_unassigned_safe (s : Cpu) (rnd cmd : Nat)
    (hf : next_instr s = some cmd) (ha : assigned cmd = false) :
    (∃ t, cpu_exec s rnd = some t) ∧
    ((cmd >>> 8) >>> 4 ≠ 0x5 → (cmd >>> 8) >>> 4 ≠ 0x9 →
      cpu_exec s rnd = some s) := by
  have hx : cpu_exec s rnd = execCmd s rnd cmd := by
    unfold cpu_exec
    rw [hf]
    rfl
  by_cases h0 : (cmd >>> 8) >>> 4 = 0x0
  · simp [assigned, h0] at ha
  by_cases h1 : (cmd >>> 8) >>> 4 = 0x1
  · simp [assigned, h1] at ha
  by_cases h2 : (cmd >>> 8) >>> 4 = 0x2
  · simp [assigned, h2] at ha
  by_cases h3 : (cmd >>> 8) >>> 4 = 0x3
  · simp [assigned, h3] at ha
  by_cases h4 : (cmd >>> 8) >>> 4 = 0x4
  · simp [assigned, h4] at ha
  by_cases h5 : (cmd >>> 8) >>> 4 = 0x5
  · refine ⟨?_, fun hne _ => absurd h5 hne⟩
    rw [hx]
    by_cases hc : vGet s ((0x0F00 &&& cmd) >>> 8) = vGet s ((0x00F0 &&& cmd) >>> 4)
    · exact ⟨{ s with pc := s.pc + 2 }, by simp [execCmd, h5, hc]⟩
    · exact ⟨s, by simp [execCmd, h5, hc]⟩
  by_cases h6 : (cmd >>> 8) >>> 4 = 0x6
  · simp [assigned, h6] at ha
  by_cases h7 : (cmd >>> 8) >>> 4 = 0x7
  · simp [assigned, h7] at ha
  by_cases h8 : (cmd >>> 8) >>> 4 = 0x8
  · have hn15 : 0x000F &&& cmd < 16 := by
      have hle : 0x000F &&& cmd ≤ 0x000F := Nat.and_le_left
      omega
    obtain ⟨n, hn, hcmdn⟩ : ∃ n, n < 16 ∧ 0x000F &&& cmd = n := ⟨_, hn15, rfl⟩
    have hgoal : execCmd s rnd cmd = some s := by
      interval_cases n
      all_goals try simp [assigned, h8, hcmdn] at ha
      all_goals simp [execCmd, h8, hcmdn]
    exact ⟨⟨s, hx ▸ hgoal⟩, fun _ _ => hx ▸ hgoal⟩
  by_cases h9 : (cmd >>> 8) >>> 4 = 0x9
  · refine ⟨?_, fun _ hne => absurd h9 hne⟩
    rw [hx]
    by_cases hc : vGet s ((0x0F00 &&& cmd) >>> 8) = vGet s ((0x00F0 &&& cmd) >>> 4)
    · exact ⟨s, by simp [execCmd, h9, hc]⟩
    · exact ⟨{ s with pc := s.pc + 2 }, by simp [execCmd, h9, hc]⟩
  by_cases hA : (cmd >>> 8) >>> 4 = 0xA
  · simp [assigned, hA] at ha
  by_cases hB : (cmd >>> 8) >>> 4 = 0xB
  · simp [assigned, hB] at ha
  by_cases hC : (cmd >>> 8) >>> 4 = 0xC
  · simp [assigned, hC] at ha
  by_cases hD : (cmd >>> 8) >>> 4 = 0xD
  · simp [assigned, hD] at ha
  by_cases hE : (cmd >>> 8) >>> 4 = 0xE
  · have hgoal : execCmd s rnd cmd = some s := by
      simp [execCmd, hE]
    exact ⟨⟨s, hx ▸ hgoal⟩, fun _ _ => hx ▸ hgoal⟩
  by_cases hF : (cmd >>> 8) >>> 4 = 0xF
  · simp [assigned, hF] at ha
    have hgoal : execCmd s rnd cmd = some s := by
      simp [execCmd, hF, ha]
    exact ⟨⟨s, hx ▸ hgoal⟩, fun _ _ => hx ▸ hgoal⟩
  · have hgoal : execCmd s rnd cmd = some s := by
      simp [execCmd, h0, h1, h2, h3, h4, h5, h6, h7, h8, h9, hA, hB, hC, hD, hE, hF]
    exact ⟨⟨s, hx ▸ hgoal⟩, fun _ _ => hx ▸ hgoal⟩

/-- C9 witness: the unassigned word `8F08` steps a fresh machine to
itself. -/
theorem cpu_exec_unassigned_safe_witness :
    cpu_exec c9WState 0 = some c9WState :=
  (cpu_exec_unassigned_safe c9WState 0 0x8F08 rfl rfl).2 (by decide) (by decide)

/-- C10: on the 32×64 framebuffer, the write accessor `set_display` is
defined exactly under the precondition `x < 64 ∧ y < 32`; outside it the
unchecked `display[y][x]` indexing panics (modelled as `none`). -/
theorem set_display_defined_iff (s : Cpu) (x y : Nat) (value : Bool)
    (hrows : s.display.length = 32)
    (hcols : ∀ row ∈ s.display, row.length = 64) :
    (set_display s x y value).isSome ↔ (x < 64 ∧ y < 32) := by
  unfold set_display
  constructor
  · intro hsome
    rcases hy : s.display.get? y with _ | row
    · rw [hy] at hsome; simp at hsome
    · have hrow : row ∈ s.display := by
        rw [List.get?_eq_some] at hy
        obtain ⟨hlt, hget⟩ := hy
        exact hget ▸ List.get_mem _ _ _
      have hylt : y < 32 := by
        rw [List.get?_eq_some] at hy
        obtain ⟨hlt, _⟩ := hy
        omega
      rcases hx : row.get? x with _ | b
      · rw [hy, Option.some_bind, hx, Option.none_bind] at hsome
        simp at hsome
      · have : x < row.length := by
          rw [List.get?_eq_some] at hx
          obtain ⟨hlt, _⟩ := hx
          exact hlt
        exact ⟨by rw [hcols row hrow] at this; exact this, hylt⟩
  · rintro ⟨hx, hy⟩
    have hylt : y < s.display.length := by omega
    have hrowget : s.display.get? y = some (s.display.get ⟨y, hylt⟩) := by
      rw [List.get?_eq_some]; exact ⟨hylt, rfl⟩
    rw [hrowget]
    have hrow : s.display.get ⟨y, hylt⟩ ∈ s.display := List.get_mem _ _ _
    have hxlt : x < (s.display.get ⟨y, hylt⟩).length := by
      rw [hcols _ hrow]; exact hx
    have hxget : (s.display.get ⟨y, hylt⟩).get? x =
        some ((s.display.get ⟨y, hylt⟩).get ⟨x, hxlt⟩) := by
      rw [List.get?_eq_some]; exact ⟨hxlt, rfl⟩
    rw [Option.some_bind, hxget]
    rfl

/-- C10 witness: the call `set_display(64, 0, true)` on a fresh machine
is undefined (panics). -/
theorem set_display_defined_iff_witness :
    (set_display Cpu.new 64 0 true).isSome = false := by
  have h := set_display_defined_iff Cpu.new 64 0 true
    (by show (List.replicate 32 (List.replicate 64 false)).length = 32
        rw [List.length_replicate])
    (by intro row hr
        have hrep : row = List.replicate 64 false := List.eq_of_mem_replicate hr
        rw [hrep, List.length_replicate])
  rcases hh : (set_display Cpu.new 64 0 true).isSome with _ | _
  · rfl
  · exact absurd ((h.mp (by rw [hh])).1) (by decide)
